import Mathlib

/-!
Verification of the correlation-id middleware (`node-correlation-id-mw`).

The development shallowly embeds the repository's three modules:

* `src/lib/correlationIdHelper.js` — the correlator (`withId`, `bindId`,
  `getId`, `setId`, `isUUID`, `configureArgs`) built on Node's
  `AsyncLocalStorage`;
* `src/lib/correlationIdMiddleware.js` — the Express middleware
  (`correlationMw`) that resolves the identifier from the configured
  header, establishes a scope, mirrors the identifier onto the response
  and fires a Graylog log emission;
* `src/lib/graylogHelper.js` — `sendLogToGraylog`.

JavaScript values that flow through the correlator API are modelled by a
small universe `CorrId.JSVal` (undefined, null, booleans, strings,
functions, arrays of strings); truthiness and `typeof === "function"` are
embedded directly.  Node's `AsyncLocalStorage` is not part of the
repository; its scope store is modelled from the spec (§4.1 Context
Store) as a heap of scope records (`List String`, one `id` per record)
together with the pointer to the record current in a given continuation
(`Option Nat`).  `asyncLocalStorage.run({id}, work)` allocates a fresh
record; every continuation causally descended from `work` carries the
pointer to that record.
-/

namespace CorrId

/-- The universe of JavaScript values used by the source's API surface:
`undefined`, `null`, booleans, strings, functions (identified by a tag,
standing for the closure), and arrays of strings.  Numbers and nested
arrays do not occur in the repository's call sites and are omitted. -/
inductive JSVal
  | undef
  | nullv
  | boolv (b : Bool)
  | str (s : String)
  | fn (tag : Nat)
  | arr (elems : List String)
deriving DecidableEq

/-- JavaScript truthiness (`!v` negated) for the modelled universe:
`undefined`, `null`, `false` and `""` are falsy; functions and arrays
are truthy. -/
def truthy : JSVal → Bool
  | .undef => false
  | .nullv => false
  | .boolv b => b
  | .str s => !(s == "")
  | .fn _ => true
  | .arr _ => true

/-- Predicate `isFunction(object)` from `correlationIdHelper.js`:
`typeof object === "function"`. -/
def isFunction : JSVal → Bool
  | .fn _ => true
  | _ => false

/-- ECMAScript `ToString` on the modelled universe, as applied by
`RegExp.prototype.test` to a non-string argument:
`String(undefined) = "undefined"`, `String(null) = "null"`, booleans
print their name, an array joins its elements with `","`
(`Array.prototype.toString`), and a function renders its source text,
which never has the UUID shape (modelled by a fixed non-UUID string). -/
def jsToString : JSVal → String
  | .undef => "undefined"
  | .nullv => "null"
  | .boolv true => "true"
  | .boolv false => "false"
  | .str s => s
  | .fn _ => "function () \x7b\x7d"
  | .arr xs => String.intercalate "," xs

/-- The character class `[0-9a-fA-F]` of the source's `uuidRegex`
(the trailing `/i` flag adds nothing: both cases are already listed). -/
def isHexDigit (c : Char) : Bool :=
  (decide ('0' ≤ c) && decide (c ≤ '9')) ||
  (decide ('a' ≤ c) && decide (c ≤ 'f')) ||
  (decide ('A' ≤ c) && decide (c ≤ 'F'))

/-- Consume exactly `n` hex digits (`[0-9a-fA-F]{n}`), returning the
rest of the input, or `none` if fewer than `n` hex digits are present. -/
def consumeHex : Nat → List Char → Option (List Char)
  | 0, cs => some cs
  | _ + 1, [] => none
  | n + 1, c :: cs => if isHexDigit c then consumeHex n cs else none

/-- Consume a single `-`. -/
def consumeDash : List Char → Option (List Char)
  | [] => none
  | c :: cs => if c = '-' then some cs else none

/-- The source's `uuidRegex`
`/^[0-9a-fA-F]{8}\b-[0-9a-fA-F]{4}\b-[0-9a-fA-F]{4}\b-[0-9a-fA-F]{4}\b-[0-9a-fA-F]{12}$/i`
applied to a string, embedded as a sequential matcher.  The `\b`
assertions sit between a hex digit (a word character) and `-` (a
non-word character), so each one always holds and adds nothing; the
`/i` flag adds nothing because the class already lists both cases. -/
def uuidRegexTest (s : String) : Bool :=
  let rest :=
    (consumeHex 8 s.toList).bind fun r1 =>
    (consumeDash r1).bind fun r2 =>
    (consumeHex 4 r2).bind fun r3 =>
    (consumeDash r3).bind fun r4 =>
    (consumeHex 4 r4).bind fun r5 =>
    (consumeDash r5).bind fun r6 =>
    (consumeHex 4 r6).bind fun r7 =>
    (consumeDash r7).bind fun r8 =>
    consumeHex 12 r8
  rest == some []

/-- Function `isUUID(id)` from `correlationIdHelper.js`: `uuidRegex.test(id)`.
`RegExp.prototype.test` coerces a non-string argument with `ToString`
before matching. -/
def isUUID (id : JSVal) : Bool :=
  uuidRegexTest (jsToString id)

/-- The canonical 8-4-4-4-12 hex-grouped UUID textual shape, written
out from the spec's words (§4.2): five hyphen-separated groups of hex
digits (either case) of lengths 8, 4, 4, 4, 12. -/
def uuidCanonicalShape (s : String) : Prop :=
  ∃ g1 g2 g3 g4 g5 : List Char,
    s.toList =
      g1 ++ ('-' :: (g2 ++ ('-' :: (g3 ++ ('-' :: (g4 ++ ('-' :: g5))))))) ∧
    g1.length = 8 ∧ g2.length = 4 ∧ g3.length = 4 ∧ g4.length = 4 ∧
    g5.length = 12 ∧
    ∀ c, c ∈ g1 ++ g2 ++ g3 ++ g4 ++ g5 → isHexDigit c = true

/-!
## Context Store

Modelled from the spec: the Context Store (§4.1) is Node's
`AsyncLocalStorage`, a platform primitive whose code is not part of this
repository.  Per the spec, `run(record, fn)` makes `record` the "current
record" for the full causal continuation of `fn`; outside any extent the
lookup yields an absent value; records of unrelated extents are never
shared.

The model: the process heap of live scope records is a `List String`
(each record `{ id }` holds exactly its `id` field, so a record is its
string); a record is named by its heap address.  The "current record"
of a point of execution is an `Option Nat` pointer — every continuation
causally descended from a `run` carries the pointer to the record that
`run` allocated, and `none` models execution outside any scope.
-/

/-- The call `asyncLocalStorage.run({ id }, work)` as performed by `withId`
(`correlationIdHelper.js` line 36): allocate a fresh scope record
holding `id` and hand `work`'s extent the pointer to it.  Returns the
pointer current inside `work` and the grown heap. -/
def runScope (id : String) (heap : List String) : Nat × List String :=
  (heap.length, heap ++ [id])

/-- Function `getId()` from `correlationIdHelper.js` (lines 109-112):
`store && store.id` — `none` (undefined) when no scope is current,
otherwise the current record's `id` field. -/
def getId (cur : Option Nat) (heap : List String) : Option String :=
  cur.bind fun a => heap[a]?

/-- Function `setId(id)` from `correlationIdHelper.js` (lines 125-133): throws
when no scope is current, otherwise mutates the current record's `id`
field in place (`store.id = id`). -/
def setId (cur : Option Nat) (x : String) (heap : List String) :
    Except String (List String) :=
  match cur with
  | none => .error
      "Missing correlation scope. \nUse bindId or withId to create a correlation scope."
  | some a => .ok (heap.set a x)

/-- Whether `needle` occurs as a contiguous substring of `hay`. -/
def listContainsSub (needle hay : List Char) : Bool :=
  (List.range (hay.length + 1)).any fun i => needle.isPrefixOf (hay.drop i)

/-!
## Interleaved continuations of two scopes

Two concurrently processed requests interleave their asynchronous
continuations on one event loop.  Each continuation carries the pointer
of the scope it descends from, so an interleaved run is a list of
`(pointer, operation)` pairs executed against the shared heap.
-/

/-- A `getId`/`setId` call issued by some continuation. -/
inductive ScopeOp
  | getOp
  | setOp (v : String)
deriving DecidableEq

/-- Execute an interleaved list of `getId`/`setId` calls, each tagged
with the scope pointer of the continuation issuing it, against the
shared heap.  Returns the values observed by the `getId` calls (tagged
with their scope pointer) and the final heap. -/
def runOps : List (Nat × ScopeOp) → List String →
    List (Nat × Option String) × List String
  | [], heap => ([], heap)
  | (a, .getOp) :: rest, heap =>
      ((a, getId (some a) heap) :: (runOps rest heap).1,
       (runOps rest heap).2)
  | (a, .setOp v) :: rest, heap =>
      match setId (some a) v heap with
      | .ok heap' => runOps rest heap'
      | .error _ => runOps rest heap

/-!
## Argument resolution (`configureArgs`) and `withId` / `bindId`
-/

/-- Wrapper `configureArgs(func)` from `correlationIdHelper.js` (lines 58-69),
restricted to its argument-resolution effect: given the two call-site
arguments `(id, work)`, perform
`if (!work && isFunction(id)) \x7b work = id; id = randomUUID(); \x7d`
and then `if (!work) throw new Error("Missing work parameter")`,
returning the resolved `(id, work)` pair otherwise.  `gen` stands for
the value `randomUUID()` returns at this call (Node's `randomUUID` is a
platform primitive; per the spec it yields a freshly generated
canonical-shape UUID). -/
def configureArgs (gen : String) (id work : JSVal) :
    Except String (JSVal × JSVal) :=
  let q := if !truthy work && isFunction id then (JSVal.str gen, id)
           else (id, work)
  if !truthy q.2 then .error "Missing work parameter" else .ok q

/-- Invoking `work()`: a function value is called (its tag names the
closure that ran); calling any non-function raises a `TypeError`. -/
def callWork : JSVal → Except String Nat
  | .fn t => .ok t
  | _ => .error "work is not a function"

/-- The public `correlator.withId` — `configureArgs(withId)` applied to the two
call-site arguments (`correlationIdHelper.js` lines 20, 35-37, 58-69):
resolve the arguments, then `asyncLocalStorage.run({ id }, () => work())`.
Returns the scope record's `id` value together with the tag of the work
closure that ran inside it, or the error thrown. -/
def withId (gen : String) (id work : JSVal) : Except String (JSVal × Nat) :=
  match configureArgs gen id work with
  | .error e => .error e
  | .ok (rid, w) =>
      match callWork w with
      | .error e => .error e
      | .ok t => .ok (rid, t)

/-- The call `correlator.bindId(work)` with only a work function
(`correlationIdHelper.js` lines 21, 47-49, 58-69): `configureArgs` runs
once at bind time, drawing `randomUUID()` once — modelled by a
generator stream `uuidGen` and a draw counter.  The returned wrapper
closes over the drawn identifier; the counter advances by exactly one
draw. -/
def bindIdOnlyWork (uuidGen : Nat → String) (ctr : Nat) : String × Nat :=
  (uuidGen ctr, ctr + 1)

/-- One invocation of the wrapper `bindId` returned
(`(...args) => asyncLocalStorage.run({ id }, () => work(...args))`):
each invocation evaluates the object literal `{ id }` afresh, so it
allocates a new scope record holding the captured identifier. -/
def invokeBound (capturedId : String) (heap : List String) :
    Nat × List String :=
  runScope capturedId heap

/-!
## Graylog helper (`graylogHelper.js`)
-/

/-- The GELF record `sendLogToGraylog` posts: host, version,
short message, unix timestamp, severity level, and the correlation
identifier under the custom field `id-hly`. -/
structure GelfMessage where
  host : String
  version : String
  short_message : String
  timestamp : Nat
  level : Nat
  idHly : JSVal
deriving DecidableEq

/-- Function `sendLogToGraylog(correlationId)` from `graylogHelper.js`:
`if (!correlationId) return Promise.resolve()` — a falsy identifier
produces no emission attempt and an immediately resolved promise
(`none`); otherwise the GELF message is built and POSTed (`some msg`;
the returned promise always resolves eventually, transport errors are
swallowed inside the helper).  `nowMs` stands for `Date.now()`. -/
def sendLogToGraylog (nowMs : Nat) (correlationId : JSVal) :
    Option GelfMessage :=
  if !truthy correlationId then none
  else some ⟨"holafly.com", "1.1", "Request correlation tracking",
    nowMs / 1000, 6, correlationId⟩

/-!
## The middleware (`correlationIdMiddleware.js`)

`correlationMw(options)` returns `(req, res, next) => ...`.  The model
renders one request's processing as the list of externally observable
events, in the order the event loop performs them.  The possible
behaviours of the `sendLogToGraylog(...)` call as guarded by the
middleware's `try/catch`:

* the returned promise fulfils (`resolves`) — the `.catch` handler is
  skipped, the `.finally` handler calls `next()` once the promise has
  settled;
* the returned promise rejects (`rejects`) — the `.catch` handler logs
  `'Logging error:'`, then the `.finally` handler calls `next()`;
* the call itself throws synchronously (`throwsSync`) — the `catch`
  block logs `'Unexpected error with Graylog logging:'` and calls
  `next()` immediately.
-/

/-- How the `sendLogToGraylog(id)` call behaves for this request. -/
inductive EmissionBehavior
  | resolves
  | rejects
  | throwsSync
deriving DecidableEq

/-- Externally observable events of one request's processing.
`callNext` records the value `getId()` returns at the moment the
downstream handler runs. -/
inductive Event
  | setHeader (name value : String)
  | emitCall (id : String)
  | logSettled (fulfilled : Bool)
  | diag (tag : String)
  | callNext (observed : Option String)
deriving DecidableEq

/-- The resolution `const headerName = (options && options.header) || 'x-correlation-id'`:
the argument is the value of `options && options.header` (absent
`options` or absent `header` field give `none`); a falsy header name
(the empty string) falls back to the default. -/
def headerNameOf : Option String → String
  | some h => if h = "" then "x-correlation-id" else h
  | none => "x-correlation-id"

/-- Express `req.get(headerName)`: look the header up in the request's header
list, `undefined` (`none`) when absent. -/
def reqGet (req : List (String × String)) (name : String) : Option String :=
  (req.find? fun p => p.1 = name).map fun p => p.2

/-- The `try \x7b sendLogToGraylog(logId).catch(...).finally(() => next())
\x7d catch (err) \x7b console.error(...); next(); \x7d` tail shared by
both branches, followed by the downstream handler observing `getId()`:

* `resolves`: the call is issued; the middleware's synchronous frame
  returns; the promise later fulfils; `.finally` invokes `next()`.
* `rejects`: as above but the promise rejects, `.catch` reports
  `'Logging error:'` on the diagnostic channel, `.finally` invokes
  `next()`.
* `throwsSync`: the call is issued and faults; the `catch` block
  reports `'Unexpected error with Graylog logging:'` and invokes
  `next()` at once — no promise ever settles. -/
def emissionEvents (logId : String) (observed : Option String) :
    EmissionBehavior → List Event
  | .resolves =>
      [.emitCall logId, .logSettled true, .callNext observed]
  | .rejects =>
      [.emitCall logId, .logSettled false, .diag "Logging error:",
       .callNext observed]
  | .throwsSync =>
      [.emitCall logId, .diag "Unexpected error with Graylog logging:",
       .callNext observed]

/-- The `correlator.withId(id, () => ...)` branch taken when the header
carried a valid UUID: the scope record `\x7b id \x7d` is freshly
allocated (heap `[v]`, pointer `0` within this request's extent), the
response header is set to the incoming value `v` held by the closure,
then the emission tail runs. -/
def incomingTrace (headerName v : String) (beh : EmissionBehavior) :
    List Event :=
  .setHeader headerName v :: emissionEvents v (getId (some 0) [v]) beh

/-- The `correlator.withId(() => ...)` branch taken otherwise:
`configureArgs` draws `randomUUID()` (the value `gen`), the scope record
is freshly allocated, `const newId = correlator.getId()` reads the
identifier actually placed in the scope, the response header is set to
`newId`, then the emission tail runs with `newId`. -/
def generatedTrace (headerName gen : String) (beh : EmissionBehavior) :
    List Event :=
  match getId (some 0) [gen] with
  | some newId =>
      .setHeader headerName newId ::
        emissionEvents newId (getId (some 0) [gen]) beh
  | none => []

/-- The middleware `correlationMw(options)` applied to one request
(`correlationIdMiddleware.js` lines 30-69): resolve the header name,
read the configured header, and run the valid-UUID branch when
`id && correlator.isUUID(id)` holds, the generated branch otherwise.
`gen` stands for the `randomUUID()` value drawn inside `configureArgs`
on the generated branch; `beh` is the behaviour of the
`sendLogToGraylog` call. -/
def correlationMw (options : Option String) (req : List (String × String))
    (gen : String) (beh : EmissionBehavior) : List Event :=
  match reqGet req (headerNameOf options) with
  | some v =>
      if v ≠ "" ∧ uuidRegexTest v = true then
        incomingTrace (headerNameOf options) v beh
      else generatedTrace (headerNameOf options) gen beh
  | none => generatedTrace (headerNameOf options) gen beh

/-- The value the response carries under header `name` after the trace:
the last `setHeader` for that name. -/
def respHeader (events : List Event) (name : String) : Option String :=
  (events.filterMap fun e =>
    match e with
    | .setHeader n v => if n = name then some v else none
    | _ => none).getLast?

/-- The `getId()` value observed by the downstream handler (the first
`callNext` event), if the handler was reached. -/
def nextSees (events : List Event) : Option (Option String) :=
  (events.filterMap fun e =>
    match e with
    | .callNext o => some o
    | _ => none).head?

/-- The diagnostic-channel messages of the trace, in order. -/
def diagTags (events : List Event) : List String :=
  events.filterMap fun e =>
    match e with
    | .diag t => some t
    | _ => none

/-- The constructor kind of an event, for ordering statements. -/
inductive EKind
  | hdr
  | emit
  | settled
  | diagk
  | nextk
deriving DecidableEq

/-- Kind of one event. -/
def ekindOf : Event → EKind
  | .setHeader _ _ => .hdr
  | .emitCall _ => .emit
  | .logSettled _ => .settled
  | .diag _ => .diagk
  | .callNext _ => .nextk

/-- The kind sequence of a trace. -/
def eventKinds (events : List Event) : List EKind :=
  events.map ekindOf

/-- Whether `candidate` is a string value. -/
def isStringVal : JSVal → Bool
  | .str _ => true
  | _ => false

/-- A sample canonical UUID used for concrete instantiations. -/
def sampleUuid : String := "123e4567-e89b-12d3-a456-426614174000"

example : uuidRegexTest "123e4567-e89b-12d3-a456-426614174000" = true := by decide
example : uuidRegexTest "123e4567e89b12d3a456426614174000" = false := by decide
example : uuidRegexTest "invalid-uuid" = false := by decide
example : uuidRegexTest "123E4567-E89B-12D3-A456-426614174000" = true := by decide
example : isUUID (.arr ["123e4567-e89b-12d3-a456-426614174000"]) = true := by decide
example : isUUID .undef = false := by decide

/-- C9: when `sendLogToGraylog` is invoked with no identifier (a falsy
correlation identifier — absent, null, or the empty string), it makes
no emission attempt and returns an immediately resolved promise,
performing no network call. -/
theorem c9_no_id_no_emission (nowMs : Nat) (cid : JSVal)
    (h : truthy cid = false) :
    sendLogToGraylog nowMs cid = none := by
  simp [sendLogToGraylog, h]

/-- Witness for C9 at the concrete inputs `undefined`, `null` and `""`. -/
theorem c9_no_id_no_emission_witness :
    truthy JSVal.undef = false ∧ sendLogToGraylog 0 JSVal.undef = none ∧
    truthy JSVal.nullv = false ∧ sendLogToGraylog 0 JSVal.nullv = none ∧
    truthy (JSVal.str "") = false ∧
    sendLogToGraylog 0 (JSVal.str "") = none :=
  ⟨rfl, c9_no_id_no_emission 0 JSVal.undef rfl,
   rfl, c9_no_id_no_emission 0 JSVal.nullv rfl,
   by decide, c9_no_id_no_emission 0 (JSVal.str "") (by decide)⟩

/-- C4: outside any scope `getId` returns an absent value without
failing, and `setId` throws a usage error whose message names both
`withId` and `bindId` as the calls that create a scope; inside a scope,
`setId x` mutates the current record in place, so `getId` through the
same record pointer — i.e. anywhere in the scope and its descendant
continuations, which all carry that pointer — subsequently returns
`x`. -/
theorem c4_get_set_scope (heap : List String) (x : String) (a : Nat)
    (ha : a < heap.length) :
    getId none heap = none ∧
    (∃ m, setId none x heap = .error m ∧
      listContainsSub "withId".toList m.toList = true ∧
      listContainsSub "bindId".toList m.toList = true) ∧
    setId (some a) x heap = .ok (heap.set a x) ∧
    getId (some a) (heap.set a x) = some x := by
  refine ⟨rfl, ⟨_, rfl, by decide, by decide⟩, rfl, ?_⟩
  simp [getId, List.getElem?_set_self ha]

/-- Witness for C4 at a concrete scope. -/
theorem c4_get_set_scope_witness :
    getId none ["u"] = none ∧
    (∃ m, setId none "n" ["u"] = .error m ∧
      listContainsSub "withId".toList m.toList = true ∧
      listContainsSub "bindId".toList m.toList = true) ∧
    setId (some 0) "n" ["u"] = .ok (["u"].set 0 "n") ∧
    getId (some 0) (["u"].set 0 "n") = some "n" :=
  c4_get_set_scope ["u"] "n" 0 (by decide)

/-- C5 counterexample: when *both* arguments are callable, the first
argument is *not* treated as the work function — `configureArgs` leaves
the pair untouched, because the swap is guarded by `!work`, so the
first function is used literally as the identifier and no fresh UUID is
synthesized. -/
theorem c5_counterexample :
    configureArgs "00000000-0000-4000-8000-000000000000"
        (JSVal.fn 0) (JSVal.fn 1)
      = Except.ok (JSVal.fn 0, JSVal.fn 1) ∧
    isFunction (JSVal.fn 0) = true ∧
    (Except.ok (JSVal.fn 0, JSVal.fn 1) : Except String (JSVal × JSVal)) ≠
      Except.ok
        ((JSVal.str "00000000-0000-4000-8000-000000000000"), JSVal.fn 0) := by
  refine ⟨rfl, rfl, ?_⟩
  intro h
  injection h with h1
  exact JSVal.noConfusion (congrArg Prod.fst h1)

/-- C5 (amended): `withId(id?, work)` resolves its arguments
polymorphically — whenever `work` is absent (falsy) *and* the first
argument is callable, the first argument is treated as the work
function and a freshly generated UUID is synthesized as the identifier;
otherwise the given `id` is used literally; `configureArgs` throws the
usage error `"Missing work parameter"` when `work` is still falsy after
resolution, and `withId` fails whenever the resolved work value is not
callable, succeeding exactly when it is. -/
theorem c5_withId_polymorphic (gen : String) (id work : JSVal) :
    (truthy work = false → isFunction id = true →
      configureArgs gen id work = .ok (.str gen, id)) ∧
    (truthy work = true → configureArgs gen id work = .ok (id, work)) ∧
    (truthy work = false → isFunction id = false →
      configureArgs gen id work = .error "Missing work parameter") ∧
    (∀ rid w, configureArgs gen id work = .ok (rid, w) →
      isFunction w = false → ∃ e, withId gen id work = .error e) ∧
    (∀ rid t, configureArgs gen id work = .ok (rid, .fn t) →
      withId gen id work = .ok (rid, t)) := by
  refine ⟨?_, ?_, ?_, ?_, ?_⟩
  · intro hw hid
    have hwt : truthy id = true := by
      cases id <;> simp_all [isFunction, truthy]
    simp [configureArgs, hw, hid, hwt]
  · intro hw
    simp [configureArgs, hw]
  · intro hw hid
    simp [configureArgs, hw, hid]
  · intro rid w hok hw
    cases w <;> simp_all [withId, callWork, isFunction]
  · intro rid t hok
    simp [withId, hok, callWork]

/-- Witness for C5 (amended): calling `withId` with only a work
function synthesizes the generated UUID as the scope identifier and
runs the work. -/
theorem c5_withId_polymorphic_witness :
    configureArgs "00000000-0000-4000-8000-000000000000"
        (JSVal.fn 0) JSVal.undef
      = Except.ok (JSVal.str "00000000-0000-4000-8000-000000000000",
          JSVal.fn 0) ∧
    withId "00000000-0000-4000-8000-000000000000" (JSVal.fn 0) JSVal.undef
      = Except.ok (JSVal.str "00000000-0000-4000-8000-000000000000", 0) := by
  have h := c5_withId_polymorphic "00000000-0000-4000-8000-000000000000"
    (JSVal.fn 0) JSVal.undef
  exact ⟨h.1 rfl rfl, h.2.2.2.2 _ 0 (h.1 rfl rfl)⟩

/-- C10: binding with only a work function draws the fresh UUID once,
at bind time (the draw counter advances exactly once); every later
invocation of the returned wrapper allocates a *new* scope record
carrying that same identifier, so a `setId` performed during one
invocation mutates only that invocation's record and the next
invocation again starts from the bind-time identifier. -/
theorem c10_bind_draws_once (g : Nat → String) (ctr : Nat)
    (heap : List String) (x : String) :
    (bindIdOnlyWork g ctr).1 = g ctr ∧
    (bindIdOnlyWork g ctr).2 = ctr + 1 ∧
    getId (some (invokeBound (g ctr) heap).1) (invokeBound (g ctr) heap).2
      = some (g ctr) ∧
    setId (some heap.length) x (heap ++ [g ctr])
      = .ok ((heap ++ [g ctr]).set heap.length x) ∧
    (invokeBound (g ctr) ((heap ++ [g ctr]).set heap.length x)).1
      ≠ heap.length ∧
    getId (some (invokeBound (g ctr)
        ((heap ++ [g ctr]).set heap.length x)).1)
      (invokeBound (g ctr) ((heap ++ [g ctr]).set heap.length x)).2
      = some (g ctr) ∧
    getId (some heap.length)
      (invokeBound (g ctr) ((heap ++ [g ctr]).set heap.length x)).2
      = some x := by
  refine ⟨rfl, rfl, ?_, rfl, ?_, ?_, ?_⟩
  · exact List.getElem?_concat_length _ _
  · simp [invokeBound, runScope]
  · exact List.getElem?_concat_length _ _
  · have h1 : heap.length < ((heap ++ [g ctr]).set heap.length x).length := by
      simp
    have h2 : heap.length < (heap ++ [g ctr]).length := by simp
    show (((heap ++ [g ctr]).set heap.length x) ++ [g ctr])[heap.length]?
      = some x
    rw [List.getElem?_append_left h1, List.getElem?_set_self h2]

theorem consumeHex_eq_some :
    ∀ {n : Nat} {cs rest : List Char},
      consumeHex n cs = some rest ↔
        ∃ pre, cs = pre ++ rest ∧ pre.length = n ∧
          ∀ c ∈ pre, isHexDigit c = true := by
  intro n
  induction n with
  | zero =>
      intro cs rest
      constructor
      · intro h
        refine ⟨[], ?_, rfl, by simp⟩
        simpa [consumeHex] using h
      · rintro ⟨pre, hcs, hlen, -⟩
        have : pre = [] := List.length_eq_zero.mp hlen
        subst this
        simpa [consumeHex] using hcs
  | succ n ih =>
      intro cs rest
      cases cs with
      | nil =>
          constructor
          · intro h
            simp [consumeHex] at h
          · rintro ⟨pre, hcs, hlen, -⟩
            cases pre with
            | nil => simp at hlen
            | cons p ps => simp at hcs
      | cons c cs' =>
          by_cases hc : isHexDigit c = true
          · constructor
            · intro h
              rw [show consumeHex (n + 1) (c :: cs')
                  = consumeHex n cs' from by simp [consumeHex, hc]] at h
              obtain ⟨pre, hcs, hlen, hhex⟩ := ih.mp h
              refine ⟨c :: pre, by simp [hcs], by simp [hlen], ?_⟩
              intro d hd
              rcases List.mem_cons.mp hd with h1 | h1
              · exact h1 ▸ hc
              · exact hhex d h1
            · rintro ⟨pre, hcs, hlen, hhex⟩
              cases pre with
              | nil => simp at hlen
              | cons p ps =>
                  obtain ⟨hp, hcs'⟩ := by
                    simpa using hcs
                  rw [show consumeHex (n + 1) (c :: cs')
                      = consumeHex n cs' from by simp [consumeHex, hc]]
                  exact ih.mpr ⟨ps, hcs', by simpa using hlen,
                    fun d hd => hhex d (List.mem_cons_of_mem p hd)⟩
          · constructor
            · intro h
              simp [consumeHex, hc] at h
            · rintro ⟨pre, hcs, hlen, hhex⟩
              cases pre with
              | nil => simp at hlen
              | cons p ps =>
                  obtain ⟨hp, -⟩ := by
                    simpa using hcs
                  exact absurd (hp ▸ hhex p (List.mem_cons_self p ps)) hc

theorem consumeDash_eq_some {cs rest : List Char} :
    consumeDash cs = some rest ↔ cs = '-' :: rest := by
  cases cs with
  | nil => simp [consumeDash]
  | cons c cs' =>
      by_cases hc : c = '-'
      · subst hc
        simp [consumeDash]
      · simp [consumeDash, hc]

theorem uuidRegexTest_iff (s : String) :
    uuidRegexTest s = true ↔ uuidCanonicalShape s := by
  unfold uuidRegexTest uuidCanonicalShape
  rw [beq_iff_eq]
  simp only [Option.bind_eq_some]
  constructor
  · rintro ⟨r1, h1, r2, h2, r3, h3, r4, h4, r5, h5, r6, h6, r7, h7, r8, h8,
      h9⟩
    obtain ⟨g1, e1, l1, x1⟩ := consumeHex_eq_some.mp h1
    obtain ⟨g2, e2, l2, x2⟩ := consumeHex_eq_some.mp h3
    obtain ⟨g3, e3, l3, x3⟩ := consumeHex_eq_some.mp h5
    obtain ⟨g4, e4, l4, x4⟩ := consumeHex_eq_some.mp h7
    obtain ⟨g5, e5, l5, x5⟩ := consumeHex_eq_some.mp h9
    have d1 := consumeDash_eq_some.mp h2
    have d2 := consumeDash_eq_some.mp h4
    have d3 := consumeDash_eq_some.mp h6
    have d4 := consumeDash_eq_some.mp h8
    refine ⟨g1, g2, g3, g4, g5, ?_, l1, l2, l3, l4, l5, ?_⟩
    · rw [e1, d1, e2, d2, e3, d3, e4, d4, e5]
      simp
    · intro c hc
      simp only [List.mem_append] at hc
      rcases hc with ((((h | h) | h) | h) | h)
      · exact x1 c h
      · exact x2 c h
      · exact x3 c h
      · exact x4 c h
      · exact x5 c h
  · rintro ⟨g1, g2, g3, g4, g5, hs, l1, l2, l3, l4, l5, hhex⟩
    have m1 : ∀ c ∈ g1, isHexDigit c = true := fun c hc =>
      hhex c (by simp [List.mem_append, hc])
    have m2 : ∀ c ∈ g2, isHexDigit c = true := fun c hc =>
      hhex c (by simp [List.mem_append, hc])
    have m3 : ∀ c ∈ g3, isHexDigit c = true := fun c hc =>
      hhex c (by simp [List.mem_append, hc])
    have m4 : ∀ c ∈ g4, isHexDigit c = true := fun c hc =>
      hhex c (by simp [List.mem_append, hc])
    have m5 : ∀ c ∈ g5, isHexDigit c = true := fun c hc =>
      hhex c (by simp [List.mem_append, hc])
    refine ⟨'-' :: (g2 ++ ('-' :: (g3 ++ ('-' :: (g4 ++ ('-' :: g5)))))),
      consumeHex_eq_some.mpr ⟨g1, hs, l1, m1⟩,
      g2 ++ ('-' :: (g3 ++ ('-' :: (g4 ++ ('-' :: g5))))),
      consumeDash_eq_some.mpr rfl,
      '-' :: (g3 ++ ('-' :: (g4 ++ ('-' :: g5)))),
      consumeHex_eq_some.mpr ⟨g2, rfl, l2, m2⟩,
      g3 ++ ('-' :: (g4 ++ ('-' :: g5))),
      consumeDash_eq_some.mpr rfl,
      '-' :: (g4 ++ ('-' :: g5)),
      consumeHex_eq_some.mpr ⟨g3, rfl, l3, m3⟩,
      g4 ++ ('-' :: g5),
      consumeDash_eq_some.mpr rfl,
      '-' :: g5,
      consumeHex_eq_some.mpr ⟨g4, rfl, l4, m4⟩,
      g5,
      consumeDash_eq_some.mpr rfl,
      consumeHex_eq_some.mpr ⟨g5, by simp, l5, m5⟩⟩

/-- C8 counterexample: `isUUID` does not return false for *every*
non-string input — `RegExp.prototype.test` coerces its argument with
`ToString`, so a one-element array holding a valid UUID string (a
non-string value) passes the test. -/
theorem c8_counterexample :
    isStringVal (JSVal.arr ["123e4567-e89b-12d3-a456-426614174000"])
      = false ∧
    isUUID (JSVal.arr ["123e4567-e89b-12d3-a456-426614174000"]) = true := by
  exact ⟨rfl, by decide⟩

/-- C8 (amended): `isUUID(candidate)` is a pure predicate that first
coerces `candidate` to a string (the coercion `RegExp.prototype.test`
performs) and returns true iff that string matches the canonical
8-4-4-4-12 hex-grouped UUID textual shape case-insensitively; in
particular it returns false for every string with wrong grouping,
length, or character set, and false for a non-string input exactly when
its string coercion does not match the shape. -/
theorem c8_isUUID_canonical (v : JSVal) :
    isUUID v = true ↔ uuidCanonicalShape (jsToString v) :=
  uuidRegexTest_iff (jsToString v)

theorem incomingTrace_eq (hn v : String) (beh : EmissionBehavior) :
    incomingTrace hn v beh
      = .setHeader hn v :: emissionEvents v (some v) beh := rfl

theorem generatedTrace_eq (hn gen : String) (beh : EmissionBehavior) :
    generatedTrace hn gen beh
      = .setHeader hn gen :: emissionEvents gen (some gen) beh := rfl

theorem correlationMw_incoming (options : Option String)
    (req : List (String × String)) (gen : String) (beh : EmissionBehavior)
    (v : String) (hv : reqGet req (headerNameOf options) = some v)
    (hc : v ≠ "" ∧ uuidRegexTest v = true) :
    correlationMw options req gen beh
      = incomingTrace (headerNameOf options) v beh := by
  unfold correlationMw
  rw [hv]
  exact if_pos hc

theorem correlationMw_generated (options : Option String)
    (req : List (String × String)) (gen : String) (beh : EmissionBehavior)
    (hmiss : ∀ v, reqGet req (headerNameOf options) = some v →
      v = "" ∨ uuidRegexTest v = false) :
    correlationMw options req gen beh
      = generatedTrace (headerNameOf options) gen beh := by
  unfold correlationMw
  cases hr : reqGet req (headerNameOf options) with
  | none => rfl
  | some v =>
      refine if_neg ?_
      rintro ⟨hne, hu⟩
      rcases hmiss v hr with h1 | h1
      · exact hne h1
      · rw [h1] at hu
        cases hu

theorem correlationMw_shape (options : Option String)
    (req : List (String × String)) (gen : String) :
    ∃ w, ∀ beh, correlationMw options req gen beh
      = .setHeader (headerNameOf options) w
          :: emissionEvents w (some w) beh := by
  by_cases hc : ∃ v, reqGet req (headerNameOf options) = some v ∧
      v ≠ "" ∧ uuidRegexTest v = true
  · obtain ⟨v, hv, hvc⟩ := hc
    exact ⟨v, fun beh => by
      rw [correlationMw_incoming options req gen beh v hv hvc,
        incomingTrace_eq]⟩
  · have hmiss : ∀ w, reqGet req (headerNameOf options) = some w →
        w = "" ∨ uuidRegexTest w = false := by
      intro w hw
      by_cases h1 : w = ""
      · exact Or.inl h1
      · right
        cases hb : uuidRegexTest w with
        | false => rfl
        | true => exact absurd ⟨w, hw, h1, hb⟩ hc
    exact ⟨gen, fun beh => by
      rw [correlationMw_generated options req gen beh hmiss,
        generatedTrace_eq]⟩

theorem respHeader_branch (hn v : String) (o : Option String)
    (beh : EmissionBehavior) :
    respHeader (.setHeader hn v :: emissionEvents v o beh) hn = some v := by
  cases beh <;> simp [respHeader, emissionEvents]

theorem nextSees_branch (hn v : String) (o : Option String)
    (beh : EmissionBehavior) :
    nextSees (.setHeader hn v :: emissionEvents v o beh) = some o := by
  cases beh <;> simp [nextSees, emissionEvents]

/-- C2: for every inbound request whose configured-header value matches
the canonical UUID shape, the middleware sets the response header — the
same configured name — to that exact value (string equality, no
normalization), and `getId()` observed by the downstream handler inside
that request returns that exact value. -/
theorem c2_valid_uuid_roundtrip (options : Option String)
    (req : List (String × String)) (gen : String) (beh : EmissionBehavior)
    (v : String) (hv : reqGet req (headerNameOf options) = some v)
    (hu : uuidRegexTest v = true) :
    respHeader (correlationMw options req gen beh) (headerNameOf options)
      = some v ∧
    nextSees (correlationMw options req gen beh) = some (some v) := by
  have hne : v ≠ "" := by
    intro h
    subst h
    exact absurd hu (by decide)
  rw [correlationMw_incoming options req gen beh v hv ⟨hne, hu⟩,
    incomingTrace_eq]
  exact ⟨respHeader_branch _ _ _ _, nextSees_branch _ _ _ _⟩

/-- Witness for C2: a request carrying a valid UUID under the default
header name. -/
theorem c2_valid_uuid_roundtrip_witness :
    respHeader
      (correlationMw none [("x-correlation-id", sampleUuid)] "g" .resolves)
      "x-correlation-id" = some sampleUuid ∧
    nextSees
      (correlationMw none [("x-correlation-id", sampleUuid)] "g" .resolves)
      = some (some sampleUuid) :=
  c2_valid_uuid_roundtrip none [("x-correlation-id", sampleUuid)] "g"
    .resolves sampleUuid rfl (by decide)

/-- C3: for every inbound request whose configured-header value is
missing, empty, or fails `isUUID`, the middleware takes the generated
branch — `withId` with no identifier, so `configureArgs` draws the
fresh UUID `gen` into the scope — reads the identifier actually placed
in the scope back via `getId()`, writes that same value to the response
header, and the downstream handler's `getId()` returns that same
generated value, which has the canonical UUID shape (Node's
`randomUUID`, modelled from the spec, yields a canonical-shape UUID:
hypothesis `hgen`). -/
theorem c3_generated_branch (options : Option String)
    (req : List (String × String)) (gen : String) (beh : EmissionBehavior)
    (hmiss : ∀ v, reqGet req (headerNameOf options) = some v →
      v = "" ∨ uuidRegexTest v = false)
    (hgen : uuidRegexTest gen = true) :
    respHeader (correlationMw options req gen beh) (headerNameOf options)
      = some gen ∧
    nextSees (correlationMw options req gen beh) = some (some gen) ∧
    uuidCanonicalShape gen := by
  rw [correlationMw_generated options req gen beh hmiss, generatedTrace_eq]
  exact ⟨respHeader_branch _ _ _ _, nextSees_branch _ _ _ _,
    (uuidRegexTest_iff gen).mp hgen⟩

/-- Witness for C3: a request carrying a malformed header value; the
generated identifier is mirrored to the response and seen by the
handler. -/
theorem c3_generated_branch_witness :
    respHeader
      (correlationMw none [("x-correlation-id", "invalid-uuid")] sampleUuid
        .resolves) "x-correlation-id" = some sampleUuid ∧
    nextSees
      (correlationMw none [("x-correlation-id", "invalid-uuid")] sampleUuid
        .resolves) = some (some sampleUuid) ∧
    uuidCanonicalShape sampleUuid :=
  c3_generated_branch none [("x-correlation-id", "invalid-uuid")] sampleUuid
    .resolves
    (by
      intro v hv
      simp [reqGet, headerNameOf] at hv
      subst hv
      exact Or.inr (by decide))
    (by decide)

/-- C6 counterexample: with a valid incoming UUID and a fulfilling
emission promise, the trace of one request places `next` *after* the
promise settles — `next()` lives in the `.finally` handler — refuting
"next is delayed only until the emission call itself has been issued". -/
theorem c6_counterexample :
    correlationMw none [("x-correlation-id", sampleUuid)] "g" .resolves
      = [.setHeader "x-correlation-id" sampleUuid, .emitCall sampleUuid,
         .logSettled true, .callNext (some sampleUuid)] ∧
    (eventKinds
        (correlationMw none [("x-correlation-id", sampleUuid)] "g"
          .resolves)).indexOf EKind.settled
      < (eventKinds
        (correlationMw none [("x-correlation-id", sampleUuid)] "g"
          .resolves)).indexOf EKind.nextk := by
  exact ⟨by decide, by decide⟩

/-- C6 (amended): for every single request the middleware mutates the
response header before issuing the log-emission call, and issues the
log-emission call before invoking `next`; when the emission call
returns a promise, `next` is invoked only after that promise settles
(fulfilment or rejection — `next()` runs in the `.finally` handler);
only when the emission call throws synchronously is `next` invoked
immediately after the fault is caught. -/
theorem c6_ordering (options : Option String) (req : List (String × String))
    (gen : String) :
    eventKinds (correlationMw options req gen .resolves)
      = [.hdr, .emit, .settled, .nextk] ∧
    eventKinds (correlationMw options req gen .rejects)
      = [.hdr, .emit, .settled, .diagk, .nextk] ∧
    eventKinds (correlationMw options req gen .throwsSync)
      = [.hdr, .emit, .diagk, .nextk] := by
  obtain ⟨w, hw⟩ := correlationMw_shape options req gen
  rw [hw .resolves, hw .rejects, hw .throwsSync]
  exact ⟨rfl, rfl, rfl⟩

/-- C7: both log-emission failure categories are caught by the
middleware and reported on the diagnostic channel under distinct tags —
promise rejection as `'Logging error:'`, a synchronous fault during the
call as `'Unexpected error with Graylog logging:'` — and in both
failure cases the request still reaches `next`. -/
theorem c7_failures_recovered (options : Option String)
    (req : List (String × String)) (gen : String) :
    diagTags (correlationMw options req gen .rejects)
      = ["Logging error:"] ∧
    EKind.nextk ∈ eventKinds (correlationMw options req gen .rejects) ∧
    diagTags (correlationMw options req gen .throwsSync)
      = ["Unexpected error with Graylog logging:"] ∧
    EKind.nextk ∈ eventKinds (correlationMw options req gen .throwsSync) ∧
    ("Logging error:" : String)
      ≠ "Unexpected error with Graylog logging:" := by
  obtain ⟨w, hw⟩ := correlationMw_shape options req gen
  rw [hw .rejects, hw .throwsSync]
  refine ⟨rfl, ?_, rfl, ?_, by decide⟩
  · show EKind.nextk ∈ [EKind.hdr, EKind.emit, EKind.settled,
      EKind.diagk, EKind.nextk]
    simp
  · show EKind.nextk ∈ [EKind.hdr, EKind.emit, EKind.diagk, EKind.nextk]
    simp

theorem runOps_setOp_cons (c : Nat) (v : String)
    (rest : List (Nat × ScopeOp)) (heap : List String) :
    runOps ((c, .setOp v) :: rest) heap = runOps rest (heap.set c v) := rfl

theorem runOps_eq_filtered (a : Nat) :
    ∀ (ops : List (Nat × ScopeOp)) (s t : List String),
      s[a]? = t[a]? →
      ((runOps ops s).1.filter (fun o => o.1 == a)
         = (runOps (ops.filter fun o => o.1 == a) t).1) ∧
      (runOps ops s).2[a]?
        = (runOps (ops.filter fun o => o.1 == a) t).2[a]? := by
  intro ops
  induction ops with
  | nil => intro s t h; exact ⟨rfl, h⟩
  | cons op rest ih =>
      intro s t h
      obtain ⟨c, o⟩ := op
      by_cases hca : c = a
      · subst hca
        cases o with
        | getOp =>
            have hg : getId (some c) s = getId (some c) t := by
              simp [getId, h]
            simp only [runOps, List.filter_cons, beq_self_eq_true,
              if_pos, ite_true]
            exact ⟨by rw [hg, (ih s t h).1], (ih s t h).2⟩
        | setOp v =>
            have h' : (s.set c v)[c]? = (t.set c v)[c]? := by
              rw [List.getElem?_set_self', List.getElem?_set_self', h]
            simp only [runOps_setOp_cons, List.filter_cons,
              beq_self_eq_true, if_pos, ite_true]
            exact ih (s.set c v) (t.set c v) h'
      · have hbeq : (c == a) = false := by
          simpa using hca
        cases o with
        | getOp =>
            simp only [runOps, List.filter_cons, hbeq, ite_false]
            exact ih s t h
        | setOp v =>
            have h' : (s.set c v)[a]? = t[a]? := by
              rw [List.getElem?_set_ne hca, h]
            simp only [runOps_setOp_cons, List.filter_cons, hbeq,
              ite_false]
            exact ih (s.set c v) t h'

/-- C1: scope isolation under interleaving.  Two unrelated requests
hold distinct scope records `a ≠ b` (each `withId` call allocates a
fresh record, see `runScope`), and every continuation of a request
carries its own record's pointer.  For any interleaved execution of the
two requests' `getId`/`setId` calls, the values observed by request
`a`'s `getId` calls — and the final content of `a`'s record — are
exactly those of running `a`'s calls alone, and symmetrically for `b`:
neither request ever observes or mutates the other's identifier. -/
theorem c1_scope_isolation (a b : Nat) (_hab : a ≠ b)
    (ops : List (Nat × ScopeOp)) (heap : List String)
    (_htags : ∀ o ∈ ops, o.1 = a ∨ o.1 = b) :
    ((runOps ops heap).1.filter fun o => o.1 == a)
      = (runOps (ops.filter fun o => o.1 == a) heap).1 ∧
    ((runOps ops heap).1.filter fun o => o.1 == b)
      = (runOps (ops.filter fun o => o.1 == b) heap).1 ∧
    (runOps ops heap).2[a]?
      = (runOps (ops.filter fun o => o.1 == a) heap).2[a]? ∧
    (runOps ops heap).2[b]?
      = (runOps (ops.filter fun o => o.1 == b) heap).2[b]? := by
  have ha := runOps_eq_filtered a ops heap heap rfl
  have hb := runOps_eq_filtered b ops heap heap rfl
  exact ⟨ha.1, hb.1, ha.2, hb.2⟩

/-- Witness for C1: requests `0` and `1` interleave — request `1`
mutates its identifier between two reads by request `0` — and request
`0` observes exactly what it observes running alone. -/
theorem c1_scope_isolation_witness :
    (0 : Nat) ≠ 1 ∧
    ((runOps [(0, ScopeOp.getOp), (1, ScopeOp.setOp "X"),
        (0, ScopeOp.getOp), (1, ScopeOp.getOp)] ["A", "B"]).1.filter
          fun o => o.1 == 0)
      = (runOps ([(0, ScopeOp.getOp), (1, ScopeOp.setOp "X"),
          (0, ScopeOp.getOp), (1, ScopeOp.getOp)].filter
            fun o => o.1 == 0) ["A", "B"]).1 :=
  ⟨by decide,
    (c1_scope_isolation 0 1 (by decide)
      [(0, ScopeOp.getOp), (1, ScopeOp.setOp "X"),
       (0, ScopeOp.getOp), (1, ScopeOp.getOp)] ["A", "B"]
      (by decide)).1⟩

end CorrId
